import Mathlib

/-!
Verification of the test-execution and progress-gating core of the
learn-programming host-IDE plugin.

The development shallowly embeds the relevant source modules:

* `src/types.ts` — the data model (`ExerciseStatus`, `TestResult`,
  `TestOutput`, `LANGUAGE_CONFIGS`);
* `src/progressTracker.ts` — the progress store (`markCompleted`,
  `markAttempted`, `getProgress`, `isExerciseUnlocked`,
  `getExerciseStatus`, `incrementTestRuns`), with the sqlite
  `exercise_progress` table (primary key `exercise_id`, `INSERT OR
  REPLACE` writes) modelled as a function from identifiers to optional
  rows, and ISO timestamp strings modelled as natural-number instants;
* `src/testRunner.ts` — the test executor (`runTest`,
  `executeTest`, `cancelRunningTest`), with the child process's
  terminal event (an `error` event, or a `close` event carrying a
  possibly-null exit code) passed in explicitly;
* `src/batchTestRunner.ts` — the batch coordinator (`runAllTests`,
  `cancel`, `isTestRunning`), with the moment the cooperative
  cancellation flag becomes observable passed in explicitly;
* `src/extension.ts` — the `learnProgramming.runTests` command handler.
-/

namespace LearnProgramming

/-- The `SupportedLanguage` union from `src/types.ts`. -/
inductive SupportedLanguage
  | javascript
  | python
  | go
  | rust
  deriving DecidableEq, Repr

/-- The `ExerciseStatus` enum from `src/types.ts`. -/
inductive ExerciseStatus
  | Locked
  | Available
  | InProgress
  | Completed
  deriving DecidableEq, Repr

/-- The `TestResult` enum from `src/types.ts`. -/
inductive TestResult
  | Passed
  | Failed
  | Error
  deriving DecidableEq, Repr

/-- The `TestOutput` interface from `src/types.ts`: classification,
accumulated output text, and the recorded process exit code. -/
structure TestOutput where
  result : TestResult
  output : String
  exitCode : Int
  deriving DecidableEq, Repr

/-- A row of the `exercise_progress` sqlite table, as surfaced by
`ProgressTracker.getProgress` (the `ExerciseProgress` interface minus the
redundant `exerciseId` field): `completed` is the `completed = 1` flag,
and the two optional timestamps are `last_attempt` and `completed_at`.
Timestamps are modelled as natural-number instants. -/
structure ExerciseProgress where
  completed : Bool
  lastAttempt : Option Nat
  completedAt : Option Nat
  deriving DecidableEq, Repr

/-- The `exercise_progress` table keyed by its primary key
`exercise_id`: each identifier has at most one row. -/
def AttemptStore : Type := String → Option ExerciseProgress

/-- The table before any test run: no rows. -/
def emptyStore : AttemptStore := fun _ => none

/-- `ProgressTracker.markCompleted` from `src/progressTracker.ts`:
`INSERT OR REPLACE INTO exercise_progress (exercise_id, completed,
last_attempt, completed_at) VALUES (?, 1, ?, ?)` with both timestamps
bound to the same `now`. -/
def markCompleted (store : AttemptStore) (exerciseId : String) (now : Nat) : AttemptStore :=
  fun k => if k = exerciseId then some ⟨true, some now, some now⟩ else store k

/-- `ProgressTracker.markAttempted` from `src/progressTracker.ts`:
`INSERT OR REPLACE INTO exercise_progress (exercise_id, completed,
last_attempt) VALUES (?, 0, ?)`. The replaced row's `completed_at`
column is not named, so it takes its default, NULL: any prior
completion timestamp is dropped. -/
def markAttempted (store : AttemptStore) (exerciseId : String) (now : Nat) : AttemptStore :=
  fun k => if k = exerciseId then some ⟨false, some now, none⟩ else store k

/-- `ProgressTracker.getProgress`: `SELECT * FROM exercise_progress
WHERE exercise_id = ?`, resolving `null` when no row matches. -/
def getProgress (store : AttemptStore) (exerciseId : String) : Option ExerciseProgress :=
  store exerciseId

/-- One iteration of the loop in `ProgressTracker.isExerciseUnlocked`:
`const progress = await this.getProgress(allExercises[i]); if
(!progress || !progress.completed) return false;`. An out-of-range
access yields `undefined`, whose lookup matches no row, hence `false`. -/
def prevCompleted (store : AttemptStore) (allExercises : List String) (i : Nat) : Bool :=
  match allExercises[i]? with
  | none => false
  | some id =>
    match getProgress store id with
    | none => false
    | some progress => progress.completed

/-- `ProgressTracker.isExerciseUnlocked` from `src/progressTracker.ts`:
index 0 is always unlocked; otherwise the loop over `i < exerciseIndex`
returns `false` at the first predecessor without a completed row. -/
def isExerciseUnlocked (store : AttemptStore) (exerciseIndex : Nat)
    (allExercises : List String) : Bool :=
  if exerciseIndex = 0 then true
  else (List.range exerciseIndex).all (prevCompleted store allExercises)

/-- `ProgressTracker.getExerciseStatus` from `src/progressTracker.ts`. -/
def getExerciseStatus (store : AttemptStore) (exerciseId : String)
    (exerciseIndex : Nat) (allExercises : List String) : ExerciseStatus :=
  if !isExerciseUnlocked store exerciseIndex allExercises then
    ExerciseStatus.Locked
  else
    match getProgress store exerciseId with
    | none => ExerciseStatus.Available
    | some progress =>
      if progress.completed then ExerciseStatus.Completed
      else ExerciseStatus.InProgress

/-- Unfolding of one loop iteration: the check at position `i` succeeds
exactly when the list has an entry there whose stored row is completed. -/
theorem prevCompleted_eq_true_iff (store : AttemptStore) (allExercises : List String) (i : Nat) :
    prevCompleted store allExercises i = true ↔
      ∃ id progress, allExercises[i]? = some id ∧
        store id = some progress ∧ progress.completed = true := by
  unfold prevCompleted
  cases h : allExercises[i]? with
  | none => simp
  | some id =>
    simp only [getProgress]
    cases hs : store id with
    | none => simp [hs]
    | some progress => simp [hs]

/-- C1: `isExerciseUnlocked` returns true at index 0 regardless of the
stored attempt records; at any positive index it returns true iff every
lower index holds an exercise identifier whose attempt record exists and
has `completed = true` (a missing record counts as not completed). -/
theorem isExerciseUnlocked_spec (store : AttemptStore) (exerciseIndex : Nat)
    (allExercises : List String) :
    (exerciseIndex = 0 → isExerciseUnlocked store exerciseIndex allExercises = true) ∧
    (0 < exerciseIndex →
      (isExerciseUnlocked store exerciseIndex allExercises = true ↔
        ∀ i, i < exerciseIndex →
          ∃ id progress, allExercises[i]? = some id ∧
            store id = some progress ∧ progress.completed = true)) := by
  constructor
  · intro h
    simp [isExerciseUnlocked, h]
  · intro hpos
    have hne : exerciseIndex ≠ 0 := Nat.pos_iff_ne_zero.mp hpos
    unfold isExerciseUnlocked
    simp only [hne, if_false]
    rw [List.all_eq_true]
    constructor
    · intro h i hi
      exact (prevCompleted_eq_true_iff store allExercises i).mp
        (h i (List.mem_range.mpr hi))
    · intro h i hi
      exact (prevCompleted_eq_true_iff store allExercises i).mpr
        (h i (List.mem_range.mp hi))

/-- Witness for C1: with only exercise "a" completed, index 1 of the
list ["a", "b"] is unlocked, so every lower index has a completed row. -/
theorem isExerciseUnlocked_spec_witness :
    (0 : Nat) < 1 ∧
    (∀ i, i < 1 →
      ∃ id progress, (["a", "b"] : List String)[i]? = some id ∧
        markCompleted emptyStore "a" 0 id = some progress ∧ progress.completed = true) :=
  ⟨by decide,
    ((isExerciseUnlocked_spec (markCompleted emptyStore "a" 0) 1 ["a", "b"]).2
      (by decide)).mp (by decide)⟩

/-- C2: `getExerciseStatus` returns `Locked` when the exercise is not
unlocked; otherwise `Available` when no attempt record exists for the
identifier; otherwise `Completed` when the record has `completed = true`;
otherwise `InProgress`. -/
theorem getExerciseStatus_spec (store : AttemptStore) (exerciseId : String)
    (exerciseIndex : Nat) (allExercises : List String) :
    (isExerciseUnlocked store exerciseIndex allExercises = false →
      getExerciseStatus store exerciseId exerciseIndex allExercises = ExerciseStatus.Locked) ∧
    (isExerciseUnlocked store exerciseIndex allExercises = true →
      store exerciseId = none →
      getExerciseStatus store exerciseId exerciseIndex allExercises = ExerciseStatus.Available) ∧
    (isExerciseUnlocked store exerciseIndex allExercises = true →
      ∀ progress, store exerciseId = some progress → progress.completed = true →
      getExerciseStatus store exerciseId exerciseIndex allExercises = ExerciseStatus.Completed) ∧
    (isExerciseUnlocked store exerciseIndex allExercises = true →
      ∀ progress, store exerciseId = some progress → progress.completed = false →
      getExerciseStatus store exerciseId exerciseIndex allExercises = ExerciseStatus.InProgress) := by
  refine ⟨?_, ?_, ?_, ?_⟩
  · intro h
    simp [getExerciseStatus, h]
  · intro h hnone
    simp [getExerciseStatus, h, getProgress, hnone]
  · intro h progress hsome hc
    simp [getExerciseStatus, h, getProgress, hsome, hc]
  · intro h progress hsome hc
    simp [getExerciseStatus, h, getProgress, hsome, hc]

/-- Witness for C2, the spec's scenario: exercises [A, B, C] with no
attempt records give statuses [Available, Locked, Locked]; here index 1
(exercise B) is not unlocked and its status is Locked. -/
theorem getExerciseStatus_spec_witness :
    isExerciseUnlocked emptyStore 1 ["A", "B", "C"] = false ∧
    getExerciseStatus emptyStore "B" 1 ["A", "B", "C"] = ExerciseStatus.Locked :=
  ⟨by decide, (getExerciseStatus_spec emptyStore "B" 1 ["A", "B", "C"]).1 (by decide)⟩

/-- The `LanguageConfig` interface from `src/types.ts`. -/
structure LanguageConfig where
  language : SupportedLanguage
  testCommand : List String
  testFilePattern : String
  exerciseFileExtension : String
  testFramework : String
  deriving DecidableEq, Repr

/-- The `LANGUAGE_CONFIGS` table from `src/types.ts`, as the dynamic
string-keyed lookup `LANGUAGE_CONFIGS[courseLanguage]` performed by
`TestRunner.runTest`: an unknown key yields `undefined`, here `none`. -/
def LANGUAGE_CONFIGS (key : String) : Option LanguageConfig :=
  if key = "javascript" then
    some ⟨SupportedLanguage.javascript, ["npm", "test", "--"], "*.test.js", ".js", "jest"⟩
  else if key = "python" then
    some ⟨SupportedLanguage.python, ["pytest", "-v"], "test_*.py", ".py", "pytest"⟩
  else if key = "go" then
    some ⟨SupportedLanguage.go, ["go", "test", "-v"], "*_test.go", ".go", "go test"⟩
  else if key = "rust" then
    some ⟨SupportedLanguage.rust, ["cargo", "test", "--"], "*.rs", ".rs", "cargo test"⟩
  else none

/-- The `Exercise` interface from `src/types.ts`, restricted to the
fields the test runner reads (`id`, `title`, `testFile`, `path`); the
remaining metadata fields (`description`, `order`, `exerciseFile`,
`readmeFile`) are never consulted by the embedded operations. -/
structure Exercise where
  id : String
  title : String
  testFile : String
  path : String
  deriving DecidableEq, Repr

/-- The terminal event of the child process spawned by
`TestRunner.executeTest`: either the `error` event (the subprocess
failed to spawn or errored before exit) carrying the error message, or
the `close` event carrying the exit code — which Node delivers as
`null` when the process was terminated by a signal, e.g. after
`cancelRunningTest` killed it. -/
inductive ProcEvent
  | errored (message : String)
  | closed (code : Option Int)
  deriving DecidableEq, Repr

/-- The JavaScript expression `code || 0` from the `close` handler:
`null` and `0` are falsy, any other exit code passes through. -/
def jsOrZero : Option Int → Int
  | none => 0
  | some c => if c = 0 then 0 else c

/-- Resolution of the promise inside `TestRunner.executeTest`
(`src/testRunner.ts` lines 150-177), as a function of the terminal
process event and the output text accumulated from stdout/stderr: the
`error` handler resolves `Error` with sentinel exit code `-1`; the
`close` handler resolves `Passed` exactly when `code === 0` (strict
equality, so a null code is not 0) and records `code || 0`. -/
def executeTestResolve (ev : ProcEvent) (accumulated : String) : TestOutput :=
  match ev with
  | ProcEvent.errored message => ⟨TestResult.Error, message, -1⟩
  | ProcEvent.closed code =>
    ⟨if code = some 0 then TestResult.Passed else TestResult.Failed,
      accumulated, jsOrZero code⟩

/-- Outcome of a run that was cancelled mid-execution:
`cancelRunningTest` kills the live subprocess, whose `close` event then
fires with a `null` exit code, resolving the pending promise. -/
def cancelledRunOutcome (accumulated : String) : TestOutput :=
  executeTestResolve (ProcEvent.closed none) accumulated

/-- The mutable per-course state behind the `ProgressTracker`: the
`exercise_progress` table and the `total_test_runs` counter of the
`user_preferences` table. -/
structure TrackerState where
  records : AttemptStore
  totalTestRuns : Nat

/-- Tracker state of a fresh course: no rows, counter absent
(`COALESCE(..., 0)` reads it as 0). -/
def initialTracker : TrackerState := ⟨emptyStore, 0⟩

/-- `ProgressTracker.incrementTestRuns`: `INSERT OR REPLACE ... VALUES
(?, COALESCE((SELECT total_test_runs ...), 0) + 1)`. -/
def incrementTestRuns (st : TrackerState) : TrackerState :=
  { st with totalTestRuns := st.totalTestRuns + 1 }

/-- The result-dependent progress write performed by
`TestRunner.runTest` after `executeTest` resolves: `markCompleted` on
`Passed`, `markAttempted` on `Failed`, and no write otherwise. -/
def applyTestResult (st : TrackerState) (exerciseId : String)
    (result : TestResult) (now : Nat) : TrackerState :=
  match result with
  | TestResult.Passed => { st with records := markCompleted st.records exerciseId now }
  | TestResult.Failed => { st with records := markAttempted st.records exerciseId now }
  | TestResult.Error => st

/-- The validation guard opening `TestRunner.runTest`: `!exercise ||
!exercise.id || !exercise.title` under JavaScript truthiness (a missing
object, or an empty `id` or `title` string, is falsy). The test file
path is not inspected. -/
def exerciseInvalid : Option Exercise → Bool
  | none => true
  | some e => e.id = "" || e.title = ""

/-- How one `TestRunner.runTest` invocation ends. -/
inductive RunOutcome
  | validationError (message : String)
  | unsupportedLanguage (language : String)
  | completed (out : TestOutput)
  deriving DecidableEq, Repr

/-- Whether the invocation reached resolution of `executeTest`. -/
def isCompletedOutcome : RunOutcome → Bool
  | RunOutcome.completed _ => true
  | _ => false

/-- `TestRunner.runTest` from `src/testRunner.ts` (the tracker-visible
behaviour, identical on the silent and interactive paths): validate the
exercise object, look up the language config, run the test to its
terminal event `ev` with accumulated output `accumulated`, then
unconditionally `incrementTestRuns` and write the attempt record
according to the classified result. Returns the outcome together with
the tracker state after the invocation. -/
def runTest (exercise : Option Exercise) (courseLanguage : String)
    (ev : ProcEvent) (accumulated : String) (st : TrackerState) (now : Nat) :
    RunOutcome × TrackerState :=
  if exerciseInvalid exercise then
    (RunOutcome.validationError "Invalid exercise object - exercise data is missing", st)
  else
    match exercise with
    | none =>
      (RunOutcome.validationError "Invalid exercise object - exercise data is missing", st)
    | some ex =>
      match LANGUAGE_CONFIGS courseLanguage with
      | none => (RunOutcome.unsupportedLanguage courseLanguage, st)
      | some _ =>
        let out := executeTestResolve ev accumulated
        let st1 := incrementTestRuns st
        let st2 := applyTestResult st1 ex.id out.result now
        (RunOutcome.completed out, st2)

/-- Projection fact: the result-dependent progress write never touches
the test-runs counter. -/
theorem applyTestResult_totalTestRuns (st : TrackerState) (exerciseId : String)
    (result : TestResult) (now : Nat) :
    (applyTestResult st exerciseId result now).totalTestRuns = st.totalTestRuns := by
  cases result <;> rfl

/-- C3 counterexample: a run cancelled mid-execution resolves through
the killed subprocess's `close` event with a null exit code, which the
executor classifies as `Failed` with recorded exit code 0 — not as
`Error`, contrary to the claim's Error/cancelled clause. -/
theorem cancelledRun_not_error :
    cancelledRunOutcome "" = ⟨TestResult.Failed, "", 0⟩ ∧
    (cancelledRunOutcome "").result ≠ TestResult.Error := by
  constructor <;> decide

/-- C3 (amended): on subprocess completion, exit code 0 classifies as
`Passed` and any other exit code as `Failed`; an `error` event before
exit yields `Error` with the sentinel exit code -1; and a cancellation
during execution still resolves the pending result — through the close
event's null exit code — as `Failed` with recorded exit code 0. -/
theorem executeTestResolve_classification (accumulated : String) (c : Int)
    (message : String) :
    (executeTestResolve (ProcEvent.closed (some 0)) accumulated =
      ⟨TestResult.Passed, accumulated, 0⟩) ∧
    (c ≠ 0 → executeTestResolve (ProcEvent.closed (some c)) accumulated =
      ⟨TestResult.Failed, accumulated, c⟩) ∧
    (executeTestResolve (ProcEvent.errored message) accumulated =
      ⟨TestResult.Error, message, -1⟩) ∧
    (executeTestResolve (ProcEvent.closed none) accumulated =
      ⟨TestResult.Failed, accumulated, 0⟩) := by
  refine ⟨?_, ?_, ?_, ?_⟩
  · simp [executeTestResolve, jsOrZero]
  · intro h
    simp [executeTestResolve, jsOrZero, h]
  · simp [executeTestResolve]
  · simp [executeTestResolve, jsOrZero]

/-- Witness for C3 (amended): a run closing with exit code 1 is
classified `Failed` with exit code 1. -/
theorem executeTestResolve_classification_witness :
    (1 : Int) ≠ 0 ∧
    executeTestResolve (ProcEvent.closed (some 1)) "out" =
      ⟨TestResult.Failed, "out", 1⟩ :=
  ⟨by decide, (executeTestResolve_classification "out" 1 "m").2.1 (by decide)⟩

/-- C10: a `close` event delivering a null exit code (e.g. the process
was killed by a signal after cancellation) resolves with result
`Failed` and recorded exit code 0; hence an exit code of 0 in a
`TestOutput` does not imply `Passed`, and a killed run is recorded as
`Failed` rather than `Error`. -/
theorem closeNull_resolves_failed (accumulated : String) :
    executeTestResolve (ProcEvent.closed none) accumulated =
      ⟨TestResult.Failed, accumulated, 0⟩ ∧
    (executeTestResolve (ProcEvent.closed none) accumulated).exitCode = 0 ∧
    (executeTestResolve (ProcEvent.closed none) accumulated).result ≠ TestResult.Passed ∧
    (executeTestResolve (ProcEvent.closed none) accumulated).result ≠ TestResult.Error := by
  refine ⟨?_, ?_, ?_, ?_⟩ <;> simp [executeTestResolve, jsOrZero]

/-- C4: after a `runTest` invocation on a valid exercise and supported
language, the outcome is a completed `TestOutput`; on `Passed` the
attempt record holds `completed = true` with both timestamps set to
now; on `Failed` it holds `completed = false` with only the attempt
timestamp (any prior completion timestamp is dropped by the replacing
write); on `Error` the attempt records are unchanged. -/
theorem runTest_postconditions (ex : Exercise) (courseLanguage : String)
    (ev : ProcEvent) (accumulated : String) (st : TrackerState) (now : Nat)
    (hval : exerciseInvalid (some ex) = false)
    (hlang : (LANGUAGE_CONFIGS courseLanguage).isSome = true) :
    ∃ out,
      (runTest (some ex) courseLanguage ev accumulated st now).1 =
        RunOutcome.completed out ∧
      (out.result = TestResult.Passed →
        (runTest (some ex) courseLanguage ev accumulated st now).2.records ex.id =
          some ⟨true, some now, some now⟩) ∧
      (out.result = TestResult.Failed →
        (runTest (some ex) courseLanguage ev accumulated st now).2.records ex.id =
          some ⟨false, some now, none⟩) ∧
      (out.result = TestResult.Error →
        (runTest (some ex) courseLanguage ev accumulated st now).2.records =
          st.records) := by
  cases hcfg : LANGUAGE_CONFIGS courseLanguage with
  | none => rw [hcfg] at hlang; simp at hlang
  | some cfg =>
    refine ⟨executeTestResolve ev accumulated, ?_, ?_, ?_, ?_⟩
    · simp [runTest, hval, hcfg]
    · intro h
      simp [runTest, hval, hcfg, applyTestResult, h, incrementTestRuns, markCompleted]
    · intro h
      simp [runTest, hval, hcfg, applyTestResult, h, incrementTestRuns, markAttempted]
    · intro h
      simp [runTest, hval, hcfg, applyTestResult, h, incrementTestRuns]

/-- Witness for C4: a passing run at time 3 writes a completed record
with both timestamps 3. -/
theorem runTest_postconditions_witness :
    exerciseInvalid (some ⟨"ex1", "Title", "test.js", "dir"⟩) = false ∧
    (LANGUAGE_CONFIGS "javascript").isSome = true ∧
    (∃ out,
      (runTest (some ⟨"ex1", "Title", "test.js", "dir"⟩) "javascript"
          (ProcEvent.closed (some 0)) "ok" initialTracker 3).1 =
        RunOutcome.completed out ∧
      (out.result = TestResult.Passed →
        (runTest (some ⟨"ex1", "Title", "test.js", "dir"⟩) "javascript"
            (ProcEvent.closed (some 0)) "ok" initialTracker 3).2.records "ex1" =
          some ⟨true, some 3, some 3⟩) ∧
      (out.result = TestResult.Failed →
        (runTest (some ⟨"ex1", "Title", "test.js", "dir"⟩) "javascript"
            (ProcEvent.closed (some 0)) "ok" initialTracker 3).2.records "ex1" =
          some ⟨false, some 3, none⟩) ∧
      (out.result = TestResult.Error →
        (runTest (some ⟨"ex1", "Title", "test.js", "dir"⟩) "javascript"
            (ProcEvent.closed (some 0)) "ok" initialTracker 3).2.records =
          initialTracker.records)) :=
  ⟨by decide, by decide,
    runTest_postconditions ⟨"ex1", "Title", "test.js", "dir"⟩ "javascript"
      (ProcEvent.closed (some 0)) "ok" initialTracker 3 (by decide) (by decide)⟩

/-- C8 counterexample: an exercise with non-empty `id` and `title` but
an empty resolved test-file path passes the validation guard — the
guard never inspects `testFile` — so the run proceeds to the
subprocess, completes, and mutates state (counter incremented, record
written), contrary to the claim. -/
theorem emptyTestFile_passes_validation :
    (runTest (some ⟨"ex1", "Title", "", "dir"⟩) "javascript"
        (ProcEvent.closed (some 0)) "ok" initialTracker 7).1 =
      RunOutcome.completed ⟨TestResult.Passed, "ok", 0⟩ ∧
    (runTest (some ⟨"ex1", "Title", "", "dir"⟩) "javascript"
        (ProcEvent.closed (some 0)) "ok" initialTracker 7).2.totalTestRuns = 1 ∧
    (runTest (some ⟨"ex1", "Title", "", "dir"⟩) "javascript"
        (ProcEvent.closed (some 0)) "ok" initialTracker 7).2.records "ex1" =
      some ⟨true, some 7, some 7⟩ := by
  refine ⟨?_, ?_, ?_⟩ <;> decide

/-- C8 (amended): `runTest` fails immediately with the validation error
and leaves the tracker state untouched exactly when the exercise object
is missing or its `id` or `title` is empty; the resolved test-file path
is not part of the validation. -/
theorem runTest_validation (exercise : Option Exercise) (courseLanguage : String)
    (ev : ProcEvent) (accumulated : String) (st : TrackerState) (now : Nat)
    (h : exerciseInvalid exercise = true) :
    runTest exercise courseLanguage ev accumulated st now =
      (RunOutcome.validationError "Invalid exercise object - exercise data is missing",
        st) := by
  simp [runTest, h]

/-- Witness for C8 (amended): an exercise with an empty `id` is
rejected with the validation error and the tracker state is unchanged. -/
theorem runTest_validation_witness :
    exerciseInvalid (some ⟨"", "Title", "t.js", "d"⟩) = true ∧
    runTest (some ⟨"", "Title", "t.js", "d"⟩) "javascript"
        (ProcEvent.closed (some 0)) "" initialTracker 0 =
      (RunOutcome.validationError "Invalid exercise object - exercise data is missing",
        initialTracker) :=
  ⟨by decide,
    runTest_validation (some ⟨"", "Title", "t.js", "d"⟩) "javascript"
      (ProcEvent.closed (some 0)) "" initialTracker 0 (by decide)⟩

/-- C9 counterexample: a run whose subprocess errors before exit
completes with result `Error`, yet the test-runs counter goes from 0 to
1 — `runTest` increments it before inspecting the result — contrary to
the claim that an `Error` run does not increment the counter. -/
theorem errorRun_increments_counter :
    (runTest (some ⟨"ex1", "Title", "test.js", "dir"⟩) "javascript"
        (ProcEvent.errored "spawn ENOENT") "" initialTracker 0).1 =
      RunOutcome.completed ⟨TestResult.Error, "spawn ENOENT", -1⟩ ∧
    (runTest (some ⟨"ex1", "Title", "test.js", "dir"⟩) "javascript"
        (ProcEvent.errored "spawn ENOENT") "" initialTracker 0).2.totalTestRuns = 1 ∧
    initialTracker.totalTestRuns = 0 := by
  refine ⟨?_, ?_, ?_⟩ <;> decide

/-- C9 (amended): the total-test-runs counter is incremented on exactly
the `runTest` invocations whose outcome is a completed `TestOutput` —
whatever the classification, `Passed`, `Failed`, or `Error` (including
cancelled runs, which resolve as `Failed`) — and is left unchanged by
invocations rejected for validation or an unsupported language. -/
theorem runTest_counter_spec (exercise : Option Exercise) (courseLanguage : String)
    (ev : ProcEvent) (accumulated : String) (st : TrackerState) (now : Nat) :
    (runTest exercise courseLanguage ev accumulated st now).2.totalTestRuns =
      (if isCompletedOutcome (runTest exercise courseLanguage ev accumulated st now).1 then
        st.totalTestRuns + 1
      else st.totalTestRuns) := by
  unfold runTest
  split
  · simp [isCompletedOutcome]
  · split
    · simp [isCompletedOutcome]
    · split
      · simp [isCompletedOutcome]
      · simp [isCompletedOutcome, applyTestResult_totalTestRuns, incrementTestRuns]

/-- Subprocess-ownership state of one `TestRunner` instance:
`current` is the `this.currentProcess` field, and `alive` lists the
process ids of subprocesses spawned by this runner that are still
alive. -/
structure ExecState where
  current : Option Nat
  alive : List Nat
  deriving DecidableEq, Repr

/-- The runner before any test run. -/
def initExec : ExecState := ⟨none, []⟩

/-- `TestRunner.cancelRunningTest` from `src/testRunner.ts`: if
`this.currentProcess` is set, `kill()` it (it ceases to be alive) and
null the field; otherwise do nothing. -/
def cancelRunningTest (s : ExecState) : ExecState :=
  match s.current with
  | none => s
  | some p => ⟨none, s.alive.erase p⟩

/-- The opening of a run in `TestRunner.runTest` followed by the
`spawn` in `executeTest`: first `cancelRunningTest()`, then spawn a new
subprocess and store it in `this.currentProcess`. -/
def startRun (s : ExecState) (newPid : Nat) : ExecState :=
  let s1 := cancelRunningTest s
  ⟨some newPid, newPid :: s1.alive⟩

/-- The `close` handler attached in `executeTest` firing for process
`p`: the process has terminated (it leaves `alive` if it was still
there), and the handler sets `this.currentProcess = null`
unconditionally — even when the field meanwhile points at a newer
subprocess. -/
def closeFired (s : ExecState) (p : Nat) : ExecState :=
  ⟨none, s.alive.erase p⟩

/-- Events of the executor's subprocess lifecycle: a new run starting
with a fresh pid, or the `close` event of a previously spawned process
reaching the event loop. -/
inductive ExecEvent
  | run (pid : Nat)
  | closeOf (pid : Nat)
  deriving DecidableEq, Repr

/-- One lifecycle event applied to the runner state. -/
def execStep (s : ExecState) : ExecEvent → ExecState
  | ExecEvent.run pid => startRun s pid
  | ExecEvent.closeOf pid => closeFired s pid

/-- The runner state after a sequence of lifecycle events. -/
def execTrace (events : List ExecEvent) : ExecState :=
  events.foldl execStep initExec

/-- C5 evaluated at its failing trace: run pid 1; run pid 2 (pid 1 is
killed first); the killed pid 1's close event fires, nulling
`currentProcess` while pid 2 is still alive; run pid 3, whose
`cancelRunningTest` finds `currentProcess` null and kills nothing.
Pids 2 and 3 are then simultaneously alive under the same runner,
violating the at-most-one-live-subprocess invariant. -/
theorem singleFlight_violation :
    execTrace [ExecEvent.run 1, ExecEvent.run 2, ExecEvent.closeOf 1,
        ExecEvent.run 3] =
      ⟨some 3, [3, 2]⟩ ∧
    2 ≤ (execTrace [ExecEvent.run 1, ExecEvent.run 2, ExecEvent.closeOf 1,
        ExecEvent.run 3]).alive.length := by
  constructor <;> decide

/-- The `isCancelled` / `isRunning` flags of `BatchTestRunner`
(`src/batchTestRunner.ts`). -/
structure BatchRunnerState where
  isCancelled : Bool
  isRunning : Bool
  deriving DecidableEq, Repr

/-- `BatchTestRunner.isTestRunning`. -/
def isTestRunning (b : BatchRunnerState) : Bool := b.isRunning

/-- The argument shapes accepted by the `learnProgramming.runTests`
command handler in `src/extension.ts`: an `ExerciseTreeItem` wrapping an
exercise, or an `Exercise` object directly. -/
inductive CmdArg
  | treeItem (e : Exercise)
  | exerciseArg (e : Exercise)
  deriving DecidableEq, Repr

/-- How the `learnProgramming.runTests` command handler returns. -/
inductive CmdOutcome
  | rejectedBatchInProgress
  | noExerciseSelected
  | noCourseLoaded
  | ran (e : Exercise)
  deriving DecidableEq, Repr

/-- The `learnProgramming.runTests` command handler from
`src/extension.ts` (lines 107-151): first the batch guard — if
`batchTestRunner.isTestRunning()`, show the "Run All Tests is currently
in progress" warning and return — then argument normalization, the
fallback to the module-level `currentExercise`, the selection and
course checks, and finally the call into `runTests(targetExercise)`. -/
def runTestsCommand (b : BatchRunnerState) (arg : Option CmdArg)
    (currentExercise : Option Exercise) (hasCourse : Bool) : CmdOutcome :=
  if isTestRunning b then CmdOutcome.rejectedBatchInProgress
  else
    let fromArg : Option Exercise :=
      match arg with
      | some (CmdArg.treeItem e) => some e
      | some (CmdArg.exerciseArg e) => some e
      | none => none
    let target : Option Exercise :=
      match fromArg with
      | none => currentExercise
      | some e => some e
    match target with
    | none => CmdOutcome.noExerciseSelected
    | some e => if hasCourse then CmdOutcome.ran e else CmdOutcome.noCourseLoaded

/-- C7: while the batch coordinator is running, every
`learnProgramming.runTests` request — whatever its argument, current
selection, or course state — is rejected with the batch-in-progress
signal and no test run is performed. -/
theorem runTestsCommand_rejects_during_batch (b : BatchRunnerState)
    (arg : Option CmdArg) (currentExercise : Option Exercise) (hasCourse : Bool)
    (h : isTestRunning b = true) :
    runTestsCommand b arg currentExercise hasCourse =
      CmdOutcome.rejectedBatchInProgress ∧
    ∀ e, runTestsCommand b arg currentExercise hasCourse ≠ CmdOutcome.ran e := by
  constructor
  · simp [runTestsCommand, h]
  · intro e
    simp [runTestsCommand, h]

/-- Witness for C7: with the running flag set, a direct exercise
argument is rejected and nothing runs. -/
theorem runTestsCommand_rejects_during_batch_witness :
    isTestRunning ⟨false, true⟩ = true ∧
    runTestsCommand ⟨false, true⟩
        (some (CmdArg.exerciseArg ⟨"ex1", "Title", "t.js", "d"⟩)) none true =
      CmdOutcome.rejectedBatchInProgress :=
  ⟨by decide,
    (runTestsCommand_rejects_during_batch ⟨false, true⟩
      (some (CmdArg.exerciseArg ⟨"ex1", "Title", "t.js", "d"⟩)) none true
      (by decide)).1⟩

/-- Lookup in the JavaScript `Map` of batch results
(`progress.results.get`), keyed by exercise identifier. -/
def mapGet (m : List (String × TestOutput)) (k : String) : Option TestOutput :=
  match m with
  | [] => none
  | (a, b) :: rest => if a = k then some b else mapGet rest k

/-- `progress.results.set(exercise.id, result)`: a JavaScript `Map.set`
replaces an existing entry in place, otherwise appends in insertion
order. -/
def mapSet (m : List (String × TestOutput)) (k : String) (v : TestOutput) :
    List (String × TestOutput) :=
  match m with
  | [] => [(k, v)]
  | (a, b) :: rest => if a = k then (k, v) :: rest else (a, b) :: mapSet rest k v

/-- Outcome of awaiting `this.testRunner.runTest(exercise, ...,
{silent: true})` inside the batch loop: a resolved `TestOutput`, or an
exception caught by the per-iteration `try`/`catch` carrying its
message. -/
inductive IterationOutcome
  | ok (out : TestOutput)
  | thrown (message : String)
  deriving DecidableEq, Repr

/-- The `TestOutput` the loop records for an iteration outcome: the
resolved value, or — in the `catch` branch — an `Error` output with the
exception message and exit code -1. -/
def resultOf : IterationOutcome → TestOutput
  | IterationOutcome.ok out => out
  | IterationOutcome.thrown message => ⟨TestResult.Error, message, -1⟩

/-- The `BatchTestProgress` accumulator from `src/batchTestRunner.ts`,
restricted to the counted fields and the results map (the
`currentExercise` and `exercises` fields only feed the webview
rendering). -/
structure BatchProgress where
  total : Nat
  completed : Nat
  passed : Nat
  failed : Nat
  results : List (String × TestOutput)
  deriving DecidableEq, Repr

/-- How `BatchTestRunner.runAllTests` terminates: the loop ran every
exercise, or the cancellation check exited it early. -/
inductive BatchTerminal
  | completedNormally
  | cancelled
  deriving DecidableEq, Repr

/-- One iteration body of the loop in `runAllTests`: record the result
under the exercise id, bump `passed` on `Passed` or `failed` on
`Failed` (an `Error` result bumps neither), bump `failed` in the
`catch` branch, and bump `completed` either way. -/
def batchStep (p : BatchProgress) (e : Exercise) (r : IterationOutcome) : BatchProgress :=
  match r with
  | IterationOutcome.ok out =>
    let p1 := { p with results := mapSet p.results e.id out }
    let p2 :=
      if out.result = TestResult.Passed then { p1 with passed := p1.passed + 1 }
      else if out.result = TestResult.Failed then { p1 with failed := p1.failed + 1 }
      else p1
    { p2 with completed := p2.completed + 1 }
  | IterationOutcome.thrown message =>
    let p1 := { p with results := mapSet p.results e.id ⟨TestResult.Error, message, -1⟩ }
    let p2 := { p1 with failed := p1.failed + 1 }
    { p2 with completed := p2.completed + 1 }

/-- Value of the `this.isCancelled` flag as observed by the check at
the top of iteration `i`: `cancelAt = some k` means `cancel()` ran once
`k` iterations had finished, so the checks at positions `k` and later
see the flag set; `none` means cancellation is never requested. -/
def cancelObserved (cancelAt : Option Nat) (i : Nat) : Bool :=
  match cancelAt with
  | none => false
  | some k => decide (k ≤ i)

/-- The `for (const exercise of exercises)` loop of
`BatchTestRunner.runAllTests`: before each exercise the cancellation
flag is checked — if set, the loop returns at once with the results so
far and the cancelled terminal state; otherwise the iteration body runs
and the loop continues. An exhausted list terminates normally. -/
def runAllTestsLoop (outcome : Exercise → IterationOutcome) (cancelAt : Option Nat) :
    List Exercise → Nat → BatchProgress → BatchProgress × BatchTerminal
  | [], _, p => (p, BatchTerminal.completedNormally)
  | e :: rest, i, p =>
    if cancelObserved cancelAt i then (p, BatchTerminal.cancelled)
    else runAllTestsLoop outcome cancelAt rest (i + 1) (batchStep p e (outcome e))

/-- `BatchTestRunner.runAllTests`: reset the flags, start from the
empty progress accumulator (`total` is the exercise count), and run the
loop. -/
def runAllTests (exercises : List Exercise) (outcome : Exercise → IterationOutcome)
    (cancelAt : Option Nat) : BatchProgress × BatchTerminal :=
  runAllTestsLoop outcome cancelAt exercises 0 ⟨exercises.length, 0, 0, 0, []⟩

/-- The loop body folded over a list of exercises. -/
def batchFold (outcome : Exercise → IterationOutcome) (p : BatchProgress)
    (l : List Exercise) : BatchProgress :=
  l.foldl (fun q e => batchStep q e (outcome e)) p

/-- Setting a key absent from the results map appends the entry. -/
theorem mapSet_fresh (m : List (String × TestOutput)) (k : String) (v : TestOutput)
    (h : mapGet m k = none) : mapSet m k v = m ++ [(k, v)] := by
  induction m with
  | nil => rfl
  | cons hd tl ih =>
    obtain ⟨a, b⟩ := hd
    by_cases hak : a = k
    · simp [mapGet, hak] at h
    · simp only [mapGet, hak, if_false] at h
      simp [mapSet, hak, ih h]

/-- Lookup distributes over appended result maps. -/
theorem mapGet_append (m1 m2 : List (String × TestOutput)) (k : String) :
    mapGet (m1 ++ m2) k =
      match mapGet m1 k with
      | some v => some v
      | none => mapGet m2 k := by
  induction m1 with
  | nil => simp [mapGet]
  | cons hd tl ih =>
    obtain ⟨a, b⟩ := hd
    by_cases hak : a = k
    · simp [mapGet, hak]
    · simp [mapGet, hak, ih]

/-- A key matching none of a mapped pair list's keys looks up to none. -/
theorem mapGet_map_eq_none (l : List Exercise) (f : Exercise → TestOutput) (a : String)
    (h : a ∉ l.map Exercise.id) :
    mapGet (l.map fun e => (e.id, f e)) a = none := by
  induction l with
  | nil => rfl
  | cons e rest ih =>
    simp only [List.map_cons, List.mem_cons, not_or] at h
    simp only [List.map_cons, mapGet]
    rw [if_neg (fun hc => h.1 hc.symm)]
    exact ih h.2

/-- One iteration on a fresh exercise id appends exactly its entry. -/
theorem batchStep_results (p : BatchProgress) (e : Exercise) (r : IterationOutcome)
    (h : mapGet p.results e.id = none) :
    (batchStep p e r).results = p.results ++ [(e.id, resultOf r)] := by
  cases r with
  | ok out =>
    cases hres : out.result <;>
      simp [batchStep, hres, resultOf, mapSet_fresh _ _ _ h]
  | thrown message =>
    simp [batchStep, resultOf, mapSet_fresh _ _ _ h]

/-- Every iteration increments the completed count by one. -/
theorem batchStep_completed (p : BatchProgress) (e : Exercise) (r : IterationOutcome) :
    (batchStep p e r).completed = p.completed + 1 := by
  cases r with
  | ok out => cases hres : out.result <;> simp [batchStep, hres]
  | thrown message => simp [batchStep]

/-- Folding iterations over exercises with fresh, mutually distinct ids
appends their entries in order. -/
theorem batchFold_results (outcome : Exercise → IterationOutcome) :
    ∀ (l : List Exercise) (p : BatchProgress),
    (∀ e ∈ l, mapGet p.results e.id = none) → (l.map Exercise.id).Nodup →
    (batchFold outcome p l).results =
      p.results ++ l.map fun e => (e.id, resultOf (outcome e)) := by
  intro l
  induction l with
  | nil => intro p _ _; simp [batchFold]
  | cons e rest ih =>
    intro p hfresh hnodup
    have hstep : (batchStep p e (outcome e)).results =
        p.results ++ [(e.id, resultOf (outcome e))] :=
      batchStep_results p e (outcome e) (hfresh e (List.mem_cons_self e rest))
    simp only [List.map_cons, List.nodup_cons] at hnodup
    have hrest : ∀ e2 ∈ rest, mapGet (batchStep p e (outcome e)).results e2.id = none := by
      intro e2 he2
      rw [hstep, mapGet_append, hfresh e2 (List.mem_cons_of_mem e he2)]
      have hne : e.id ≠ e2.id := by
        intro hc
        exact hnodup.1 (hc ▸ List.mem_map_of_mem Exercise.id he2)
      simp [mapGet, hne]
    have : batchFold outcome p (e :: rest) =
        batchFold outcome (batchStep p e (outcome e)) rest := rfl
    rw [this, ih (batchStep p e (outcome e)) hrest hnodup.2, hstep]
    simp

/-- Folding iterations adds the list length to the completed count. -/
theorem batchFold_completed (outcome : Exercise → IterationOutcome) :
    ∀ (l : List Exercise) (p : BatchProgress),
    (batchFold outcome p l).completed = p.completed + l.length := by
  intro l
  induction l with
  | nil => intro p; simp [batchFold]
  | cons e rest ih =>
    intro p
    have : batchFold outcome p (e :: rest) =
        batchFold outcome (batchStep p e (outcome e)) rest := rfl
    rw [this, ih, batchStep_completed]
    simp [Nat.add_assoc, Nat.add_comm 1 rest.length]

/-- When the cancellation flag becomes observable at check `k` and the
list still holds more than `k - i` exercises, the loop started at index
`i` runs exactly the first `k - i` of them and exits cancelled. -/
theorem runAllTestsLoop_cancelled (outcome : Exercise → IterationOutcome) (k : Nat) :
    ∀ (l : List Exercise) (i : Nat) (p : BatchProgress), i ≤ k → k - i < l.length →
    runAllTestsLoop outcome (some k) l i p =
      (batchFold outcome p (l.take (k - i)), BatchTerminal.cancelled) := by
  intro l
  induction l with
  | nil => intro i p _ hlen; simp at hlen
  | cons e rest ih =>
    intro i p hik hlen
    by_cases hki : k ≤ i
    · have hkeq : k - i = 0 := Nat.sub_eq_zero_of_le hki
      simp [runAllTestsLoop, cancelObserved, hki, hkeq, batchFold]
    · have hik2 : i + 1 ≤ k := Nat.succ_le_of_lt (Nat.lt_of_not_le hki)
      have hsub : k - i = (k - (i + 1)) + 1 := by omega
      have hlen2 : k - (i + 1) < rest.length := by
        simp only [List.length_cons] at hlen
        omega
      have hfold : batchFold outcome p (List.take (k - i) (e :: rest)) =
          batchFold outcome (batchStep p e (outcome e)) (List.take (k - (i + 1)) rest) := by
        rw [hsub, List.take_succ_cons]
        rfl
      rw [hfold]
      have hobs : cancelObserved (some k) i = false := by
        simp [cancelObserved, hki]
      simp only [runAllTestsLoop, hobs, if_false, Bool.false_eq_true]
      exact ih (i + 1) (batchStep p e (outcome e)) hik2 hlen2

/-- C6: when cancellation is requested after `k` of `n` exercises have
been iterated (and `k < n`), the batch reports the cancelled terminal
state, its results map holds exactly the `k` earlier iterations'
entries in order — so `k` entries in total and `completed = k` — and
none of the remaining `n - k` exercises has a result recorded. -/
theorem runAllTests_cancellation (exercises : List Exercise)
    (outcome : Exercise → IterationOutcome) (k : Nat)
    (hk : k < exercises.length) (hnodup : (exercises.map Exercise.id).Nodup) :
    (runAllTests exercises outcome (some k)).2 = BatchTerminal.cancelled ∧
    (runAllTests exercises outcome (some k)).1.results =
      (exercises.take k).map (fun e => (e.id, resultOf (outcome e))) ∧
    (runAllTests exercises outcome (some k)).1.results.length = k ∧
    (runAllTests exercises outcome (some k)).1.completed = k ∧
    (∀ e ∈ exercises.drop k,
      mapGet (runAllTests exercises outcome (some k)).1.results e.id = none) := by
  have hloop := runAllTestsLoop_cancelled outcome k exercises 0
    ⟨exercises.length, 0, 0, 0, []⟩ (Nat.zero_le k) (by simpa using hk)
  have hrun : runAllTests exercises outcome (some k) =
      (batchFold outcome ⟨exercises.length, 0, 0, 0, []⟩ (exercises.take k),
        BatchTerminal.cancelled) := by
    unfold runAllTests
    simpa using hloop
  have hnodup_take : ((exercises.take k).map Exercise.id).Nodup := by
    rw [List.map_take]
    exact hnodup.sublist (List.take_sublist k (exercises.map Exercise.id))
  have hresults : (batchFold outcome ⟨exercises.length, 0, 0, 0, []⟩
      (exercises.take k)).results =
      (exercises.take k).map fun e => (e.id, resultOf (outcome e)) := by
    have := batchFold_results outcome (exercises.take k)
      ⟨exercises.length, 0, 0, 0, []⟩ (fun e _ => rfl) hnodup_take
    simpa using this
  refine ⟨by rw [hrun], ?_, ?_, ?_, ?_⟩
  · rw [hrun]
    exact hresults
  · rw [hrun]
    simp only [hresults, List.length_map, List.length_take]
    exact Nat.min_eq_left (Nat.le_of_lt hk)
  · rw [hrun]
    have := batchFold_completed outcome (exercises.take k)
      ⟨exercises.length, 0, 0, 0, []⟩
    simp only [this]
    simp [List.length_take, Nat.min_eq_left (Nat.le_of_lt hk)]
  · intro e he
    rw [hrun]
    simp only [hresults]
    apply mapGet_map_eq_none
    rw [List.map_take]
    intro hmem
    have hdmem : e.id ∈ (exercises.map Exercise.id).drop k := by
      rw [← List.map_drop]
      exact List.mem_map_of_mem Exercise.id he
    have hsplit : (exercises.map Exercise.id).take k ++
        (exercises.map Exercise.id).drop k = exercises.map Exercise.id :=
      List.take_append_drop k (exercises.map Exercise.id)
    have hnd := hnodup
    rw [← hsplit] at hnd
    exact (List.nodup_append.mp hnd).2.2 hmem hdmem

/-- Concrete three-exercise course used to witness the batch theorem. -/
def sampleExercises : List Exercise :=
  [⟨"a", "A", "ta", "pa"⟩, ⟨"b", "B", "tb", "pb"⟩, ⟨"c", "C", "tc", "pc"⟩]

/-- Concrete iteration outcomes: every exercise passes. -/
def sampleOutcome : Exercise → IterationOutcome :=
  fun _ => IterationOutcome.ok ⟨TestResult.Passed, "", 0⟩

/-- Witness for C6: cancelling after 1 of 3 exercises leaves exactly
one recorded result and the cancelled terminal state. -/
theorem runAllTests_cancellation_witness :
    1 < sampleExercises.length ∧
    (sampleExercises.map Exercise.id).Nodup ∧
    ((runAllTests sampleExercises sampleOutcome (some 1)).2 = BatchTerminal.cancelled ∧
    (runAllTests sampleExercises sampleOutcome (some 1)).1.results =
      (sampleExercises.take 1).map (fun e => (e.id, resultOf (sampleOutcome e))) ∧
    (runAllTests sampleExercises sampleOutcome (some 1)).1.results.length = 1 ∧
    (runAllTests sampleExercises sampleOutcome (some 1)).1.completed = 1 ∧
    (∀ e ∈ sampleExercises.drop 1,
      mapGet (runAllTests sampleExercises sampleOutcome (some 1)).1.results e.id = none)) :=
  ⟨by decide, by decide,
    runAllTests_cancellation sampleExercises sampleOutcome 1 (by decide) (by decide)⟩

end LearnProgramming
